import Mathlib

/-!
Formal model of the credential / delegation-chain verification engine
(`src/verifier/verifier.py`, `src/verifier/status.py`, `src/verifier/crypto.py`,
`src/verifier/anchor.py`, `src/verifier/constants.py`).

External effects (JWS verification, status-document fetches, JWKS key lookup,
wall-clock time, SHA-256 hashing, VRO signing) are modelled as fields of an
explicit environment record `Env`; for a fixed environment every modelled
function is pure, matching a single evaluation of the Python code at a fixed
external state.  Python dicts with optional keys are modelled as structures
with `Option` fields (`none` = key absent); `.get(k, default)` becomes
`Option.getD`.  Keys whose absence is collapsed by the source itself
(e.g. `dg.status.url` defaulting to `""`) are modelled post-collapse.
-/

/-- Metadata dict attached to an anchor (opaque key/value map). -/
abbrev Metadata := List (String × String)

/-- Scope object of a delegation: `{"resource": ..., "actions": [...]}`.
`resource := none` models an absent key (`scope.get("resource")`). -/
structure DgScope where
  resource : Option String := none
  actions : List String := []
deriving DecidableEq

/-- Key-binding object inside a delegation payload; `kid := none` models an
absent `kid` key. -/
structure KeyBinding where
  kid : Option String := none
deriving DecidableEq

/-- The `dg` object of a delegation payload.  `statusUrl` is
`payload["dg"]["status"].get("url", "")` with the source's own defaulting
already applied; `keyBinding := none` models an absent or empty (falsy)
`key_binding` dict. -/
structure DgObj where
  scope : DgScope := {}
  statusUrl : String := ""
  keyBinding : Option KeyBinding := none
deriving DecidableEq

/-- Payload of a delegation token as returned by `verify_jws`. -/
structure DgPayload where
  nbf : Option Int := none
  exp : Option Int := none
  sub : String := ""
  dg : DgObj := {}
deriving DecidableEq

/-- One element of the `delta` list passed to `verify_delegation_chain`;
only the `"raw"` key is read by the verifier. -/
structure DgElem where
  raw : String
deriving DecidableEq

/-- A StatusList2021 status document; only `encodedList` is read. -/
structure StatusDoc where
  encodedList : Option String := none
deriving DecidableEq

/-- Anchor proof as built by `MockBlockchainAnchor.anchor_chain_fingerprint`;
the nested `proof` dict is flattened into the `proof_*` fields
(its constant `"type": "mock_blockchain"` entry is omitted). -/
structure AnchorProofRec where
  block_hash : String
  block_number : Nat
  transaction_hash : String
  timestamp : Int
  proof_fingerprint : String
  proof_block_hash : String
  proof_chain_position : Nat
deriving DecidableEq

/-- One entry of the mock blockchain's hash chain (`self._chain`). -/
structure ChainEntry where
  block_hash : String
  block_number : Nat
  fingerprint : String
  timestamp : Int
deriving DecidableEq

/-- State of a `MockBlockchainAnchor`: the fingerprint → proof map
(`_in_memory_anchors`, as an association list) and the hash chain. -/
structure AnchorState where
  anchors : List (String × AnchorProofRec) := []
  chain : List ChainEntry := []
deriving DecidableEq

/-- Environment available to the anchor ledger: the wall clock and the two
SHA-256 constructions (block hash over the canonical block JSON plus the
previous block hash, and transaction hash over fingerprint/timestamp/number),
modelled as abstract deterministic functions. -/
structure HashEnv where
  now : Int
  mkBlockHash : String → Metadata → Int → Nat → Option String → String
  mkTxHash : String → Int → Nat → String

/-- Verification policy; each field is `none` when the corresponding key is
absent, with the source's `.get` defaults applied at use sites. -/
structure Policy where
  max_delegation_depth : Option Int := none
  status_required : Option Bool := none
  require_anchor : Option Bool := none
  alg_allowlist : Option (List String) := none
  clock_skew_seconds : Option Int := none
  holder_binding_required : Option Bool := none
  id : Option String := none
deriving DecidableEq

/-- JWT header of a VC-JWT as returned by `verify_jws`; only `alg` is read. -/
structure VcHeader where
  alg : Option String := none
deriving DecidableEq

/-- Payload of a VC-JWT.  `statusListCredential` and `statusListIndex` are
`payload["vc"]["credentialStatus"]` entries with the source's defaulting
(`""`, `0`) already applied. -/
structure VcPayload where
  iss : Option String := none
  sub : Option String := none
  nbf : Option Int := none
  exp : Option Int := none
  statusListCredential : String := ""
  statusListIndex : Int := 0
deriving DecidableEq

/-- Diagnostic info dict returned by `verify_vc_jwt` and
`verify_delegation_chain`; every field optional, `none` = key absent. -/
structure Info where
  depth : Option Nat := none
  chain_fingerprint : Option String := none
  index : Option Int := none
  reason : Option String := none
  error : Option String := none
  max_depth : Option Int := none
  actual : Option Nat := none
  iss : Option String := none
  sub : Option String := none
  alg : Option String := none
  allowed : Option (List String) := none
  now : Option Int := none
  nbf : Option Int := none
  exp : Option Int := none
  fingerprint : Option String := none
deriving DecidableEq

/-- The Verification Result Object assembled by `verify_cvc` step 5. -/
structure Vro where
  cvc_id : String
  timestamp : Int
  policy_ref : String
  issuer : Option String
  subject : Option String
  delegation_chain_depth : Nat
  decision : String
  assurance : String
  chain_fingerprint : Option String
deriving DecidableEq

/-- Diagnostic info dict returned by `verify_cvc`. -/
structure CvcInfo where
  msg : Option String := none
  stage : Option String := none
  inner : Option Info := none
  reason : Option String := none
  error : Option String := none
  vro_jwt : Option String := none
deriving DecidableEq

/-- Holder-binding object in CVC metadata; `proof := none` models an absent
or non-string `proof` entry, and `none` at the outer level models an absent
or empty (falsy) holder-binding dict. -/
structure HolderBinding where
  proof : Option String := none
deriving DecidableEq

/-- The `M` (metadata) member of a CVC.  `raw_vc_jwt` has the source default
`""` applied; `raw_vc_ld_nonempty` is the truthiness of
`M.get("raw_vc_ld", \x7b\x7d)`. -/
structure MetaM where
  profile_hint : Option String := none
  raw_vc_jwt : String := ""
  raw_vc_ld_nonempty : Bool := false
  request_id : Option String := none
  holder_binding : Option HolderBinding := none
deriving DecidableEq

/-- Canonical Verification Context as consumed by `verify_cvc`.  Each field
is `none` when the corresponding top-level key is absent.  The contents of
`C`, `pi` and `S` are never read by `verify_cvc`, so they are modelled as
`Unit`. -/
structure Cvc where
  I_issuer : Option String := none
  I_subject : Option String := none
  C : Option Unit := none
  pi : Option Unit := none
  P : Option Policy := none
  S : Option Unit := none
  M : Option MetaM := none
  Delta : Option (List DgElem) := none
deriving DecidableEq

/-- External environment of one verification run: wall clock, JWS
verification oracle (per raw token), status fetcher, JWKS kid-existence
probe, global anchor instance, the SHA-256 chain-fingerprint function over
the parsed payloads, the anchor hash functions, and the VRO signer. -/
structure Env where
  now : Int
  verifyJwsDg : String → Except String DgPayload
  verifyJwsVc : String → Except String (VcHeader × VcPayload)
  fetchStatus : String → Except String StatusDoc
  keyExists : String → Bool
  anchorInstance : Option AnchorState
  chainHash : List DgPayload → String
  hashEnv : HashEnv
  signVro : Vro → Except String String

namespace ErrorCode

def OK : String := "OK"

def FORMAT_ERROR : String := "100"

def STRUCT : String := "100"

def PROOF_ERROR : String := "E200"

def ALG : String := "E200"

def VC_TIME : String := "E200"

def VC_REVOKED : String := "E200"

def KEY_BINDING_UNVERIFIED : String := "E200"

def CHAIN_ERROR : String := "E300"

def DG_DEPTH : String := "E300"

def DG_TIME : String := "E300"

def DG_REVOKED : String := "E300"

def STATUS_FETCH_ERROR : String := "E300"

def ANCHOR_NOT_FOUND : String := "E300"

def ANCHOR_VERIFICATION_FAILED : String := "E300"

def SCOPE_VIOLATION : String := "E400"

def DG_SCOPE_ESCALATION : String := "E400"

def POLICY_ERROR : String := "E500"

def HOLDER_BINDING : String := "E500"

def INTERNAL_ERROR : String := "E900"

def INTERNAL : String := "E900"

end ErrorCode

/-- `DETERMINISTIC_TIMESTAMP` from `constants.py`. -/
def DETERMINISTIC_TIMESTAMP : Int := 1735600000

/-- Boolean prefix test on character lists (model of Python substring
machinery). -/
def isPrefixB : List Char → List Char → Bool
  | [], _ => true
  | _ :: _, [] => false
  | a :: as, b :: bs => if a = b then isPrefixB as bs else false

/-- Boolean substring-occurrence test on character lists. -/
def containsSub (pat : List Char) : List Char → Bool
  | [] => pat.isEmpty
  | c :: rest => isPrefixB pat (c :: rest) || containsSub pat rest

/-- Python's `sub in s` on strings. -/
def pyInStr (needle s : String) : Bool := containsSub needle.data s.data

/-- `is_revoked` from `status.py`: pattern check on `encodedList`, the
`index` argument is never consulted. -/
def isRevoked (status_doc : StatusDoc) (index : Int) : Bool :=
  let encoded_list := status_doc.encodedList.getD ""
  if pyInStr "/////" encoded_list then true
  else false

/-- `scope_subset` from `verifier.py`: resources must be equal and the
child's action set must be a subset of the parent's. -/
def scope_subset (child_scope parent_scope : DgScope) : Bool :=
  if child_scope.resource ≠ parent_scope.resource then false
  else child_scope.actions.all (fun a => parent_scope.actions.contains a)

/-- Association-list lookup in the anchor map (Python dict access). -/
def lookupA : List (String × AnchorProofRec) → String → Option AnchorProofRec
  | [], _ => none
  | (k, v) :: rest, f => if k = f then some v else lookupA rest f

/-- `MockBlockchainAnchor.anchor_chain_fingerprint`.  Returns the new (or
existing) proof together with the post-call anchor state; `.error` models a
raised `AnchorError`. -/
def anchorChainFingerprint (st : AnchorState) (fingerprint : String)
    (metadata : Metadata) (henv : HashEnv) :
    Except String (AnchorProofRec × AnchorState) :=
  if fingerprint = "" then .error "Fingerprint cannot be empty"
  else
    match lookupA st.anchors fingerprint with
    | some existing => .ok (existing, st)
    | none =>
      let block_number := st.chain.length + 1
      let timestamp := henv.now
      let previous_hash : Option String :=
        (st.chain.getLast?).map (fun e => e.block_hash)
      let block_hash :=
        henv.mkBlockHash fingerprint metadata timestamp block_number previous_hash
      let transaction_hash := henv.mkTxHash fingerprint timestamp block_number
      let anchor_proof : AnchorProofRec :=
        { block_hash := block_hash
          block_number := block_number
          transaction_hash := transaction_hash
          timestamp := timestamp
          proof_fingerprint := fingerprint
          proof_block_hash := block_hash
          proof_chain_position := block_number }
      let st2 : AnchorState :=
        { anchors := st.anchors ++ [(fingerprint, anchor_proof)]
          chain := st.chain ++
            [{ block_hash := block_hash
               block_number := block_number
               fingerprint := fingerprint
               timestamp := timestamp }] }
      .ok (anchor_proof, st2)

/-- Tail of `MockBlockchainAnchor.verify_anchor` after the optional supplied
proof has been cross-checked: lookup plus hash-chain integrity check.
The inner `none` branch of the chain index is unreachable because it is
guarded by `block_number ≤ chain.length`. -/
def verifyAnchorStored (st : AnchorState) (fingerprint : String) :
    Bool × Option String :=
  match lookupA st.anchors fingerprint with
  | none => (false, some "Fingerprint not anchored")
  | some stored_proof =>
    let block_number := stored_proof.block_number
    if 1 ≤ block_number ∧ block_number ≤ st.chain.length then
      match st.chain[block_number - 1]? with
      | some chain_entry =>
        if chain_entry.fingerprint ≠ fingerprint then
          (false, some "Chain integrity verification failed")
        else (true, none)
      | none => (true, none)
    else (true, none)

/-- `MockBlockchainAnchor.verify_anchor`. -/
def verifyAnchor (st : AnchorState) (fingerprint : String)
    (anchor_proof : Option AnchorProofRec) : Bool × Option String :=
  if fingerprint = "" then (false, some "Fingerprint cannot be empty")
  else
    match anchor_proof with
    | some ap =>
      if ap.proof_fingerprint ≠ fingerprint then
        (false, some "Anchor proof fingerprint mismatch")
      else
        match lookupA st.anchors fingerprint with
        | none => (false, some "Anchor proof not found in storage")
        | some stored =>
          if stored.transaction_hash ≠ ap.transaction_hash then
            (false, some "Anchor proof transaction hash mismatch")
          else verifyAnchorStored st fingerprint
    | none => verifyAnchorStored st fingerprint

/-- Scope-containment check of one chain element (lines 150-157 of
`verifier.py`): performed only when `i > 0`, i.e. when a previous parsed
payload exists (`prev` is `parsed_delegations[i-1]`, `none` exactly for
`i = 0`). -/
def stepDgScope (i : Nat) (prev : Option DgPayload) (payload : DgPayload) :
    Except (Bool × String × Info) DgPayload :=
  match prev with
  | some previous =>
    if scope_subset payload.dg.scope previous.dg.scope = false then
      .error (false, ErrorCode.DG_SCOPE_ESCALATION,
        { index := some (i : Int) })
    else .ok payload
  | none => .ok payload

/-- Key-binding check of one chain element (lines 118-148 of `verifier.py`)
followed by the scope check.  The delegate-subject / `key_exists_in_jwks`
branches only emit log messages in the source, so all their arms continue
identically. -/
def stepDgAfterStatus (env : Env) (i : Nat) (prev : Option DgPayload)
    (payload : DgPayload) : Except (Bool × String × Info) DgPayload :=
  match payload.dg.keyBinding with
  | some key_binding =>
    if key_binding.kid.getD "" = "" then
      .error (false, ErrorCode.KEY_BINDING_UNVERIFIED,
        { index := some (i : Int), reason := some "missing_kid" })
    else
      if payload.sub ≠ "" then
        if env.keyExists (key_binding.kid.getD "") then
          stepDgScope i prev payload
        else stepDgScope i prev payload
      else stepDgScope i prev payload
  | none => stepDgScope i prev payload

/-- Per-element body of the `for i, dg in enumerate(delta)` loop of
`verify_delegation_chain` (lines 84-157): `.error r` models an early
`return r`, `.ok payload` models falling through to the next element with
`payload` appended to `parsed_delegations`. -/
def stepDg (env : Env) (policy : Policy) (i : Nat) (prev : Option DgPayload)
    (dg : DgElem) : Except (Bool × String × Info) DgPayload :=
  match env.verifyJwsDg dg.raw with
  | .error e => .error (false, ErrorCode.STRUCT,
      { index := some (i : Int), error := some e })
  | .ok payload =>
    if env.now < payload.nbf.getD 0 ∨ env.now > payload.exp.getD 0 then
      .error (false, ErrorCode.DG_TIME, { index := some (i : Int) })
    else
      if payload.dg.statusUrl ≠ "" then
        match env.fetchStatus payload.dg.statusUrl with
        | .ok status_doc =>
          if isRevoked status_doc 0 then
            .error (false, ErrorCode.DG_REVOKED, { index := some (i : Int) })
          else stepDgAfterStatus env i prev payload
        | .error e =>
          if policy.status_required.getD true then
            .error (false, ErrorCode.STATUS_FETCH_ERROR,
              { index := some (i : Int), error := some e })
          else stepDgAfterStatus env i prev payload
      else stepDgAfterStatus env i prev payload

/-- Post-loop tail of `verify_delegation_chain` (lines 178-224):
chain-fingerprint computation and optional anchoring. -/
def finishChain (env : Env) (policy : Policy)
    (parsed_delegations : List DgPayload) : Bool × String × Info :=
  let chain_fingerprint := env.chainHash parsed_delegations
  let require_anchor := policy.require_anchor.getD false
  let okResult : Bool × String × Info :=
    (true, ErrorCode.OK,
      { depth := some parsed_delegations.length
        chain_fingerprint := some chain_fingerprint })
  if require_anchor then
    match env.anchorInstance with
    | none => okResult
    | some anchor =>
      match verifyAnchor anchor chain_fingerprint none with
      | (true, _) => okResult
      | (false, _) =>
        let metadata : Metadata :=
          [("depth", toString parsed_delegations.length),
           ("policy_id", policy.id.getD "unknown"),
           ("timestamp", toString env.now)]
        match anchorChainFingerprint anchor chain_fingerprint metadata
            env.hashEnv with
        | .ok _ => okResult
        | .error e =>
          (false, ErrorCode.ANCHOR_VERIFICATION_FAILED,
            { fingerprint := some chain_fingerprint, error := some e })
  else okResult

/-- The element loop of `verify_delegation_chain`; `acc` accumulates
`parsed_delegations` in reverse. -/
def verifyChainLoop (env : Env) (policy : Policy) :
    List DgElem → Nat → Option DgPayload → List DgPayload →
    Bool × String × Info
  | [], _, _, acc => finishChain env policy acc.reverse
  | d :: rest, i, prev, acc =>
    match stepDg env policy i prev d with
    | .error r => r
    | .ok payload => verifyChainLoop env policy rest (i + 1) (some payload)
        (payload :: acc)

/-- `verify_delegation_chain` from `verifier.py`. -/
def verifyDelegationChain (delta : List DgElem) (env : Env)
    (policy : Policy) : Bool × String × Info :=
  if delta.isEmpty then (true, ErrorCode.OK, { depth := some 0 })
  else
    let max_depth := policy.max_delegation_depth.getD 3
    if (delta.length : Int) > max_depth then
      (false, ErrorCode.DG_DEPTH,
        { max_depth := some max_depth, actual := some delta.length })
    else verifyChainLoop env policy delta 0 none []

/-- The algorithm-allowlist condition of `verify_vc_jwt`
(`header.get("alg") in alg_allowlist`). -/
def vcAlgAllowed (policy : Policy) (header : VcHeader) : Bool :=
  match header.alg with
  | some a => (policy.alg_allowlist.getD ["EdDSA"]).contains a
  | none => false

/-- The temporal-violation condition of `verify_vc_jwt`
(`now < nbf - clock_skew or now > exp + clock_skew`). -/
def vcTimeViolated (now : Int) (policy : Policy) (payload : VcPayload) : Bool :=
  let clock_skew := policy.clock_skew_seconds.getD 5
  decide (now < payload.nbf.getD 0 - clock_skew) ||
    decide (now > payload.exp.getD 0 + clock_skew)

/-- `verify_vc_jwt` from `verifier.py`; the `vp` dict is reduced to its
`"jwt"` entry. -/
def verifyVcJwt (tok : String) (env : Env) (policy : Policy) :
    Bool × String × Info :=
  match env.verifyJwsVc tok with
  | .error e => (false, ErrorCode.STRUCT, { error := some e })
  | .ok (header, payload) =>
    if vcAlgAllowed policy header = false then
      (false, ErrorCode.ALG,
        { alg := header.alg
          allowed := some (policy.alg_allowlist.getD ["EdDSA"]) })
    else if vcTimeViolated env.now policy payload then
      (false, ErrorCode.VC_TIME,
        { now := some env.now, nbf := some (payload.nbf.getD 0)
          exp := some (payload.exp.getD 0) })
    else
      let status_url := payload.statusListCredential
      let status_index := payload.statusListIndex
      let status_required := policy.status_required.getD true
      if status_url ≠ "" then
        match env.fetchStatus status_url with
        | .ok status_doc =>
          if isRevoked status_doc status_index then
            (false, ErrorCode.VC_REVOKED, { index := some status_index })
          else (true, ErrorCode.OK, { iss := payload.iss, sub := payload.sub })
        | .error e =>
          if status_required then
            (false, ErrorCode.STATUS_FETCH_ERROR,
              { error := some e, index := some status_index })
          else (true, ErrorCode.OK, { iss := payload.iss, sub := payload.sub })
      else (true, ErrorCode.OK, { iss := payload.iss, sub := payload.sub })

/-- The structural stage of `verify_cvc`: first member of
`["I_issuer", "I_subject", "C", "pi", "P", "S", "M"]` missing from the CVC,
in list order (`Delta` is not in the source's required list). -/
def firstMissingField (cvc : Cvc) : Option String :=
  if cvc.I_issuer.isNone then some "I_issuer"
  else if cvc.I_subject.isNone then some "I_subject"
  else if cvc.C.isNone then some "C"
  else if cvc.pi.isNone then some "pi"
  else if cvc.P.isNone then some "P"
  else if cvc.S.isNone then some "S"
  else if cvc.M.isNone then some "M"
  else none

/-- VRO construction (step 5 of `verify_cvc`). -/
def buildVro (request_id policy_id : String) (issV subV : Option String)
    (dgInfo : Info) : Vro :=
  { cvc_id := request_id
    timestamp := DETERMINISTIC_TIMESTAMP
    policy_ref := policy_id
    issuer := issV
    subject := subV
    delegation_chain_depth := dgInfo.depth.getD 0
    decision := "VERIFIED"
    assurance := "AAL2"
    chain_fingerprint := dgInfo.chain_fingerprint }

/-- Outcome of `verify_cvc` before VRO signing. -/
inductive CvcCore where
  | fail (code : String) (info : CvcInfo)
  | ok (vro : Vro)
deriving DecidableEq

/-- Step 5 of `verify_cvc`: VRO construction.  The `KeyError` branch models
Python's direct `cvc["M"]["request_id"]` / `cvc["P"]["id"]` indexing, whose
failure is caught by the outer handler as an internal error. -/
def mkVroStep (P : Policy) (M : MetaM) (issV subV : Option String)
    (dgInfo : Info) : CvcCore :=
  match M.request_id, P.id with
  | some request_id, some policy_id =>
    .ok (buildVro request_id policy_id issV subV dgInfo)
  | _, _ => .fail ErrorCode.INTERNAL { error := some "KeyError" }

/-- Stages 3-5 of `verify_cvc` (chain verification, holder binding, VRO
construction), shared by the VC-JWT and VC-LD credential paths. -/
def verifyCvcAfterVc (cvc : Cvc) (env : Env) (P : Policy) (M : MetaM)
    (issV subV : Option String) : CvcCore :=
  let delta := cvc.Delta.getD []
  match verifyDelegationChain delta env P with
  | (false, code, dgInfo) =>
    .fail code { stage := some "dg", inner := some dgInfo }
  | (true, _, dgInfo) =>
    if P.holder_binding_required.getD true then
      match M.holder_binding with
      | none => .fail ErrorCode.HOLDER_BINDING
          { reason := some "missing_holder_binding" }
      | some hb =>
        if hb.proof.getD "" = "" then
          .fail ErrorCode.HOLDER_BINDING
            { reason := some "invalid_proof_structure" }
        else mkVroStep P M issV subV dgInfo
    else mkVroStep P M issV subV dgInfo

/-- `verify_cvc` up to (but not including) VRO signing. -/
def verifyCvcCore (cvc : Cvc) (env : Env) : CvcCore :=
  match firstMissingField cvc with
  | some f => .fail ErrorCode.STRUCT { msg := some ("missing " ++ f) }
  | none =>
    match cvc.P, cvc.M with
    | some P, some M =>
      let profile := M.profile_hint.getD "VC-JWT"
      if profile = "VC-JWT" then
        if M.raw_vc_jwt = "" then
          .fail ErrorCode.STRUCT { msg := some "missing raw_vc_jwt in M" }
        else
          match verifyVcJwt M.raw_vc_jwt env P with
          | (false, code, vcInfo) =>
            .fail code { stage := some "vc", inner := some vcInfo }
          | (true, _, vcInfo) =>
            verifyCvcAfterVc cvc env P M vcInfo.iss vcInfo.sub
      else if profile = "VC-LD" then
        if M.raw_vc_ld_nonempty = false then
          .fail ErrorCode.STRUCT { msg := some "missing raw_vc_ld in M" }
        else verifyCvcAfterVc cvc env P M cvc.I_issuer cvc.I_subject
      else
        .fail ErrorCode.FORMAT_ERROR
          { msg := some ("Unsupported profile: " ++ profile) }
    | _, _ =>
      -- unreachable: firstMissingField already requires P and M present
      .fail ErrorCode.STRUCT { msg := some "missing P" }

/-- `verify_cvc` from `verifier.py`, including VRO signing (step 6); a
signing failure raises `ValueError`, caught by the outer handler as an
internal error. -/
def verifyCvc (cvc : Cvc) (env : Env) : Bool × String × CvcInfo :=
  match verifyCvcCore cvc env with
  | .fail code info => (false, code, info)
  | .ok vro =>
    match env.signVro vro with
    | .ok t => (true, ErrorCode.OK, { vro_jwt := some t })
    | .error e => (false, ErrorCode.INTERNAL, { error := some e })

/-- The status check of one chain element does not cause a return: no status
URL, or fetched and not revoked, or fetch failed with `status_required`
false. -/
def dgStatusPasses (env : Env) (policy : Policy) (p : DgPayload) : Bool :=
  if p.dg.statusUrl = "" then true
  else
    match env.fetchStatus p.dg.statusUrl with
    | .ok status_doc => !(isRevoked status_doc 0)
    | .error _ => !(policy.status_required.getD true)

/-- The key-binding check of one chain element does not cause a return. -/
def dgKeyBindingPasses (p : DgPayload) : Bool :=
  match p.dg.keyBinding with
  | none => true
  | some kb => !(kb.kid.getD "" == "")

/-- The scope-containment check of one chain element passes (vacuously for
the first element). -/
def scopePasses (prev : Option DgPayload) (p : DgPayload) : Bool :=
  match prev with
  | none => true
  | some q => scope_subset p.dg.scope q.dg.scope

/-- Last of `ps`, else `prev`: the `parsed_delegations[i-1]` value seen by
the element that follows `ps`. -/
def lastOr (prev : Option DgPayload) (ps : List DgPayload) :
    Option DgPayload :=
  match ps.getLast? with
  | some q => some q
  | none => prev

/-- `StepsOk env policy ds i prev ps`: processing the elements `ds` starting
at index `i` with previous payload `prev` succeeds step by step, producing
the parsed payloads `ps`. -/
inductive StepsOk (env : Env) (policy : Policy) :
    List DgElem → Nat → Option DgPayload → List DgPayload → Prop where
  | nil (i : Nat) (prev : Option DgPayload) : StepsOk env policy [] i prev []
  | cons {d : DgElem} {ds : List DgElem} {i : Nat} {prev : Option DgPayload}
      {p : DgPayload} {ps : List DgPayload} :
      stepDg env policy i prev d = .ok p →
      StepsOk env policy ds (i + 1) (some p) ps →
      StepsOk env policy (d :: ds) i prev (p :: ps)

/-- The proof record minted by `anchor_chain_fingerprint` for a fingerprint
that is not yet anchored (named form of the construction in
`anchorChainFingerprint`, used to state its result). -/
def mkAnchorProof (st : AnchorState) (fingerprint : String)
    (metadata : Metadata) (henv : HashEnv) : AnchorProofRec :=
  let block_number := st.chain.length + 1
  let timestamp := henv.now
  let previous_hash : Option String :=
    (st.chain.getLast?).map (fun e => e.block_hash)
  let block_hash :=
    henv.mkBlockHash fingerprint metadata timestamp block_number previous_hash
  let transaction_hash := henv.mkTxHash fingerprint timestamp block_number
  { block_hash := block_hash
    block_number := block_number
    transaction_hash := transaction_hash
    timestamp := timestamp
    proof_fingerprint := fingerprint
    proof_block_hash := block_hash
    proof_chain_position := block_number }

/-- The ledger state after minting a fresh anchor (named form of the state
update in `anchorChainFingerprint`). -/
def mkAnchorState (st : AnchorState) (fingerprint : String)
    (metadata : Metadata) (henv : HashEnv) : AnchorState :=
  { anchors := st.anchors ++
      [(fingerprint, mkAnchorProof st fingerprint metadata henv)]
    chain := st.chain ++
      [{ block_hash := (mkAnchorProof st fingerprint metadata henv).block_hash
         block_number := st.chain.length + 1
         fingerprint := fingerprint
         timestamp := henv.now }] }

/-! ### Concrete inputs used by witnesses and counterexamples -/

/-- Concrete hash environment for witnesses. -/
def hashEnv0 : HashEnv := ⟨1000, fun _ _ _ _ _ => "bh", fun _ _ _ => "th"⟩

/-- Delegation payload at depth 0: resource `doc1`, actions view/pay. -/
def p0W : DgPayload :=
  { nbf := some 0, exp := some 2000, sub := ""
    dg := { scope := { resource := some "doc1", actions := ["view", "pay"] }
            statusUrl := "", keyBinding := none } }

/-- Delegation payload at depth 1 escalating to `admin`. -/
def p1W : DgPayload :=
  { nbf := some 0, exp := some 2000, sub := ""
    dg := { scope := { resource := some "doc1"
                       actions := ["view", "admin"] } } }

/-- Delegation payload whose `exp` lies in the past. -/
def pExpW : DgPayload := { nbf := some 0, exp := some 10 }

/-- Delegation payload carrying a key binding without a kid. -/
def pKbW : DgPayload :=
  { nbf := some 0, exp := some 2000, sub := "agent"
    dg := { keyBinding := some {} } }

/-- Delegation payload carrying a status URL. -/
def pStatW : DgPayload :=
  { nbf := some 0, exp := some 2000, dg := { statusUrl := "su" } }

/-- VC-JWT header used by witnesses. -/
def vcHeaderW : VcHeader := { alg := some "EdDSA" }

/-- VC-JWT payload used by witnesses (no credential status). -/
def vcPayloadW : VcPayload :=
  { iss := some "did:ex:issuer", sub := some "did:ex:alice"
    nbf := some 0, exp := some 2000 }

/-- VC-JWT payload used by witnesses, carrying a status URL. -/
def vcPayloadStatW : VcPayload :=
  { vcPayloadW with statusListCredential := "su" }

/-- Concrete environment for witnesses: a few known tokens decode, every
status fetch fails, no anchor instance is configured. -/
def envW : Env :=
  { now := 1000
    verifyJwsDg := fun raw =>
      if raw = "d0" then .ok p0W
      else if raw = "d1" then .ok p1W
      else if raw = "dx" then .ok pExpW
      else if raw = "dk" then .ok pKbW
      else if raw = "ds" then .ok pStatW
      else .error "unknown token"
    verifyJwsVc := fun raw =>
      if raw = "vtok" then .ok (vcHeaderW, vcPayloadW)
      else if raw = "vstat" then .ok (vcHeaderW, vcPayloadStatW)
      else .error "unknown token"
    fetchStatus := fun _ => .error "status fetch failed"
    keyExists := fun _ => false
    anchorInstance := none
    chainHash := fun ps => "fp" ++ toString ps.length
    hashEnv := hashEnv0
    signVro := fun _ => .ok "signed.vro.jwt" }

/-- Concrete policy with only an id set (all `.get` defaults apply). -/
def polW : Policy := { id := some "policy-1" }

/-- Concrete policy with `status_required = false`. -/
def polOpenW : Policy := { id := some "policy-1", status_required := some false }

/-- CVC metadata for witnesses. -/
def metaW : MetaM :=
  { profile_hint := some "VC-JWT", raw_vc_jwt := "vtok"
    request_id := some "req-1", holder_binding := none }

/-- A structurally complete CVC whose `Delta` key is absent. -/
def cvcNoDelta : Cvc :=
  { I_issuer := some "did:ex:issuer", I_subject := some "did:ex:alice"
    C := some (), pi := some ()
    P := some { id := some "policy-1", holder_binding_required := some false }
    S := some (), M := some metaW, Delta := none }

/-- The same CVC with an explicitly empty delegation chain. -/
def cvcEmptyDelta : Cvc := { cvcNoDelta with Delta := some [] }

/-- The VRO produced for `cvcNoDelta` / `cvcEmptyDelta` under `envW`. -/
def vroW : Vro :=
  { cvc_id := "req-1", timestamp := DETERMINISTIC_TIMESTAMP
    policy_ref := "policy-1", issuer := some "did:ex:issuer"
    subject := some "did:ex:alice", delegation_chain_depth := 0
    decision := "VERIFIED", assurance := "AAL2", chain_fingerprint := none }

/-- Consistency invariant of the mock ledger, maintained by anchoring: every
stored proof points at an in-range hash-chain entry carrying its own
fingerprint.  It holds for every state reachable from the empty ledger. -/
def AnchorInv (st : AnchorState) : Prop :=
  ∀ f p, lookupA st.anchors f = some p →
    1 ≤ p.block_number ∧ p.block_number ≤ st.chain.length ∧
    ∃ e, st.chain[p.block_number - 1]? = some e ∧ e.fingerprint = f

/-! ### Helper lemmas -/

lemma isPrefixB_iff (p s : List Char) :
    isPrefixB p s = true ↔ ∃ t, s = p ++ t := by
  induction p generalizing s with
  | nil => simp [isPrefixB]
  | cons a as ih =>
    cases s with
    | nil => simp [isPrefixB]
    | cons b bs =>
      by_cases hab : a = b
      · subst hab
        simp [isPrefixB, ih]
      · simp only [isPrefixB, if_neg hab, List.cons_append, List.cons.injEq]
        constructor
        · intro h; cases h
        · rintro ⟨t, ht, h2⟩
          exact absurd ht.symm hab

lemma containsSub_iff (pat s : List Char) :
    containsSub pat s = true ↔ ∃ l r, s = l ++ pat ++ r := by
  induction s with
  | nil =>
    simp only [containsSub, List.isEmpty_iff]
    constructor
    · intro h; exact ⟨[], [], by simp [h]⟩
    · rintro ⟨l, r, h⟩
      have hlen := congrArg List.length h
      simp only [List.length_nil, List.length_append] at hlen
      exact List.length_eq_zero.mp (by omega)
  | cons c rest ih =>
    simp only [containsSub, Bool.or_eq_true, ih, isPrefixB_iff]
    constructor
    · rintro (⟨t, ht⟩ | ⟨l, r, hr⟩)
      · exact ⟨[], t, by simp [ht]⟩
      · exact ⟨c :: l, r, by simp [hr]⟩
    · rintro ⟨l, r, hlr⟩
      cases l with
      | nil => exact Or.inl ⟨r, by simpa using hlr⟩
      | cons x xs =>
        right
        simp only [List.cons_append, List.cons.injEq] at hlr
        exact ⟨xs, r, hlr.2⟩

lemma lookupA_append_some {l : List (String × AnchorProofRec)} {g : String}
    {w : AnchorProofRec} (x : List (String × AnchorProofRec))
    (h : lookupA l g = some w) : lookupA (l ++ x) g = some w := by
  induction l with
  | nil => simp [lookupA] at h
  | cons kv rest ih =>
    obtain ⟨k, v⟩ := kv
    by_cases hk : k = g
    · simp [lookupA, hk] at h ⊢; exact h
    · simp [lookupA, hk] at h ⊢; exact ih h

lemma lookupA_append_none {l : List (String × AnchorProofRec)} {g : String}
    (f : String) (v : AnchorProofRec) (h : lookupA l g = none) :
    lookupA (l ++ [(f, v)]) g = if f = g then some v else none := by
  induction l with
  | nil => simp [lookupA]
  | cons kv rest ih =>
    obtain ⟨k, w⟩ := kv
    by_cases hk : k = g
    · simp [lookupA, hk] at h
    · simp [lookupA, hk] at h ⊢; exact ih h

lemma lastOr_cons (prev : Option DgPayload) (p : DgPayload)
    (ps : List DgPayload) : lastOr prev (p :: ps) = lastOr (some p) ps := by
  cases ps with
  | nil => simp [lastOr]
  | cons q qs =>
    simp only [lastOr, List.getLast?_cons_cons]
    cases h : (q :: qs).getLast? with
    | some r => rfl
    | none => simp at h

lemma dgStatusPasses_of_error {env : Env} {policy : Policy} {p : DgPayload}
    {e : String} (hf : env.fetchStatus p.dg.statusUrl = .error e)
    (hreq : policy.status_required.getD true = false) :
    dgStatusPasses env policy p = true := by
  unfold dgStatusPasses
  by_cases hurl : p.dg.statusUrl = "" <;> simp [hurl, hf, hreq]

lemma stepDgScope_ok {i : Nat} {prev : Option DgPayload}
    {payload : DgPayload} (hscope : scopePasses prev payload = true) :
    stepDgScope i prev payload = .ok payload := by
  cases prev with
  | none => rfl
  | some q =>
    have hs : scope_subset payload.dg.scope q.dg.scope = true := by
      simpa [scopePasses] using hscope
    simp [stepDgScope, hs]

lemma stepDgScope_err {i : Nat} {payload q : DgPayload}
    (hviol : scope_subset payload.dg.scope q.dg.scope = false) :
    stepDgScope i (some q) payload =
      .error (false, ErrorCode.DG_SCOPE_ESCALATION,
        { index := some (i : Int) }) := by
  simp [stepDgScope, hviol]

lemma stepDgScope_ok_inv {i : Nat} {prev : Option DgPayload}
    {payload p : DgPayload} (h : stepDgScope i prev payload = .ok p) :
    p = payload ∧ scopePasses prev payload = true := by
  cases prev with
  | none =>
    simp only [stepDgScope] at h
    injection h with h2
    exact ⟨h2.symm, by simp [scopePasses]⟩
  | some q =>
    simp only [stepDgScope] at h
    by_cases hs : scope_subset payload.dg.scope q.dg.scope = false
    · simp only [if_pos hs] at h
      cases h
    · simp only [if_neg hs] at h
      injection h with h2
      refine ⟨h2.symm, ?_⟩
      cases hb : scope_subset payload.dg.scope q.dg.scope with
      | false => exact absurd hb hs
      | true => simp [scopePasses, hb]

lemma stepDgScope_error_fst {i : Nat} {prev : Option DgPayload}
    {payload : DgPayload} {r : Bool × String × Info}
    (h : stepDgScope i prev payload = .error r) : r.1 = false := by
  cases prev with
  | none => simp only [stepDgScope] at h; cases h
  | some q =>
    simp only [stepDgScope] at h
    by_cases hs : scope_subset payload.dg.scope q.dg.scope = false
    · simp only [if_pos hs] at h
      injection h with h2
      rw [← h2]
    · simp only [if_neg hs] at h
      cases h

lemma stepDgAfterStatus_eq_scope {env : Env} {i : Nat}
    {prev : Option DgPayload} {payload : DgPayload}
    (hkb : dgKeyBindingPasses payload = true) :
    stepDgAfterStatus env i prev payload = stepDgScope i prev payload := by
  cases hkbv : payload.dg.keyBinding with
  | none => simp [stepDgAfterStatus, hkbv]
  | some kb =>
    have hkid : ¬(kb.kid.getD "" = "") := by
      simpa [dgKeyBindingPasses, hkbv] using hkb
    simp [stepDgAfterStatus, hkbv, hkid, ite_self]

lemma stepDgAfterStatus_kb_missing {env : Env} {i : Nat}
    {prev : Option DgPayload} {payload : DgPayload} {kb : KeyBinding}
    (hkbv : payload.dg.keyBinding = some kb)
    (hkid : kb.kid.getD "" = "") :
    stepDgAfterStatus env i prev payload =
      .error (false, ErrorCode.KEY_BINDING_UNVERIFIED,
        { index := some (i : Int), reason := some "missing_kid" }) := by
  simp [stepDgAfterStatus, hkbv, hkid]

lemma stepDgAfterStatus_ok_inv {env : Env} {i : Nat}
    {prev : Option DgPayload} {payload p : DgPayload}
    (h : stepDgAfterStatus env i prev payload = .ok p) :
    stepDgScope i prev payload = .ok p := by
  cases hkbv : payload.dg.keyBinding with
  | none => simpa [stepDgAfterStatus, hkbv] using h
  | some kb =>
    simp only [stepDgAfterStatus, hkbv] at h
    by_cases hkid : kb.kid.getD "" = ""
    · simp only [if_pos hkid] at h
      cases h
    · simp only [if_neg hkid] at h
      by_cases hsub : payload.sub ≠ ""
      · simp only [if_pos hsub] at h
        cases he : env.keyExists (kb.kid.getD "") <;> simp [he] at h <;>
          exact h
      · simp only [if_neg hsub] at h
        exact h

lemma stepDgAfterStatus_error_fst {env : Env} {i : Nat}
    {prev : Option DgPayload} {payload : DgPayload} {r : Bool × String × Info}
    (h : stepDgAfterStatus env i prev payload = .error r) : r.1 = false := by
  cases hkbv : payload.dg.keyBinding with
  | none =>
    simp only [stepDgAfterStatus, hkbv] at h
    exact stepDgScope_error_fst h
  | some kb =>
    simp only [stepDgAfterStatus, hkbv] at h
    by_cases hkid : kb.kid.getD "" = ""
    · simp only [if_pos hkid] at h
      injection h with h2
      rw [← h2]
    · simp only [if_neg hkid] at h
      by_cases hsub : payload.sub ≠ ""
      · simp only [if_pos hsub] at h
        cases he : env.keyExists (kb.kid.getD "") <;> simp [he] at h <;>
          exact stepDgScope_error_fst h
      · simp only [if_neg hsub] at h
        exact stepDgScope_error_fst h

lemma stepDg_eq_afterStatus {env : Env} {policy : Policy} {i : Nat}
    {prev : Option DgPayload} {d : DgElem} {p : DgPayload}
    (hdec : env.verifyJwsDg d.raw = .ok p)
    (htime : ¬(env.now < p.nbf.getD 0 ∨ env.now > p.exp.getD 0))
    (hstat : dgStatusPasses env policy p = true) :
    stepDg env policy i prev d = stepDgAfterStatus env i prev p := by
  unfold dgStatusPasses at hstat
  simp only [stepDg, hdec]
  rw [if_neg htime]
  by_cases hurl : p.dg.statusUrl = ""
  · simp [hurl]
  · rcases hf : env.fetchStatus p.dg.statusUrl with e | doc <;>
      rw [hf] at hstat <;> simp_all

lemma stepDg_eq_ok {env : Env} {policy : Policy} {i : Nat}
    {prev : Option DgPayload} {d : DgElem} {p : DgPayload}
    (hdec : env.verifyJwsDg d.raw = .ok p)
    (htime : ¬(env.now < p.nbf.getD 0 ∨ env.now > p.exp.getD 0))
    (hstat : dgStatusPasses env policy p = true)
    (hkb : dgKeyBindingPasses p = true)
    (hscope : scopePasses prev p = true) :
    stepDg env policy i prev d = .ok p := by
  rw [stepDg_eq_afterStatus hdec htime hstat,
    stepDgAfterStatus_eq_scope hkb, stepDgScope_ok hscope]

lemma stepDg_time_err {env : Env} {policy : Policy} {i : Nat}
    {prev : Option DgPayload} {d : DgElem} {p : DgPayload}
    (hdec : env.verifyJwsDg d.raw = .ok p)
    (htime : env.now < p.nbf.getD 0 ∨ env.now > p.exp.getD 0) :
    stepDg env policy i prev d =
      .error (false, ErrorCode.DG_TIME, { index := some (i : Int) }) := by
  simp only [stepDg, hdec]
  rw [if_pos htime]

lemma stepDg_status_closed {env : Env} {policy : Policy} {i : Nat}
    {prev : Option DgPayload} {d : DgElem} {p : DgPayload} {e : String}
    (hdec : env.verifyJwsDg d.raw = .ok p)
    (htime : ¬(env.now < p.nbf.getD 0 ∨ env.now > p.exp.getD 0))
    (hurl : p.dg.statusUrl ≠ "")
    (hf : env.fetchStatus p.dg.statusUrl = .error e)
    (hreq : policy.status_required.getD true = true) :
    stepDg env policy i prev d =
      .error (false, ErrorCode.STATUS_FETCH_ERROR,
        { index := some (i : Int), error := some e }) := by
  simp only [stepDg, hdec]
  rw [if_neg htime]
  simp [hurl, hf, hreq]

lemma stepDg_kb_missing {env : Env} {policy : Policy} {i : Nat}
    {prev : Option DgPayload} {d : DgElem} {p : DgPayload} {kb : KeyBinding}
    (hdec : env.verifyJwsDg d.raw = .ok p)
    (htime : ¬(env.now < p.nbf.getD 0 ∨ env.now > p.exp.getD 0))
    (hstat : dgStatusPasses env policy p = true)
    (hkbv : p.dg.keyBinding = some kb)
    (hkid : kb.kid.getD "" = "") :
    stepDg env policy i prev d =
      .error (false, ErrorCode.KEY_BINDING_UNVERIFIED,
        { index := some (i : Int), reason := some "missing_kid" }) := by
  rw [stepDg_eq_afterStatus hdec htime hstat,
    stepDgAfterStatus_kb_missing hkbv hkid]

lemma stepDg_scope_err {env : Env} {policy : Policy} {i : Nat}
    {prev : Option DgPayload} {d : DgElem} {p q : DgPayload}
    (hdec : env.verifyJwsDg d.raw = .ok p)
    (htime : ¬(env.now < p.nbf.getD 0 ∨ env.now > p.exp.getD 0))
    (hstat : dgStatusPasses env policy p = true)
    (hkb : dgKeyBindingPasses p = true)
    (hprev : prev = some q)
    (hviol : scope_subset p.dg.scope q.dg.scope = false) :
    stepDg env policy i prev d =
      .error (false, ErrorCode.DG_SCOPE_ESCALATION,
        { index := some (i : Int) }) := by
  subst hprev
  rw [stepDg_eq_afterStatus hdec htime hstat,
    stepDgAfterStatus_eq_scope hkb, stepDgScope_err hviol]

lemma stepDg_error_fst {env : Env} {policy : Policy} {i : Nat}
    {prev : Option DgPayload} {d : DgElem} {r : Bool × String × Info}
    (h : stepDg env policy i prev d = .error r) : r.1 = false := by
  unfold stepDg at h
  rcases hdec : env.verifyJwsDg d.raw with e | payload <;>
    simp only [hdec] at h
  · injection h with h2
    rw [← h2]
  · by_cases htime : env.now < payload.nbf.getD 0 ∨ env.now > payload.exp.getD 0
    · rw [if_pos htime] at h
      injection h with h2
      rw [← h2]
    · rw [if_neg htime] at h
      by_cases hurl : payload.dg.statusUrl = ""
      · simp only [hurl, ne_eq, not_true_eq_false, if_false] at h
        exact stepDgAfterStatus_error_fst h
      · simp only [ne_eq, hurl, not_false_eq_true, if_true] at h
        rcases hf : env.fetchStatus payload.dg.statusUrl with e | doc <;>
          simp only [hf] at h
        · by_cases hreq : policy.status_required.getD true = true
          · simp only [if_pos hreq] at h
            injection h with h2
            rw [← h2]
          · simp only [if_neg hreq] at h
            exact stepDgAfterStatus_error_fst h
        · by_cases hrev : isRevoked doc 0 = true
          · simp only [if_pos hrev] at h
            injection h with h2
            rw [← h2]
          · simp only [if_neg hrev] at h
            exact stepDgAfterStatus_error_fst h

lemma stepDg_ok_inv {env : Env} {policy : Policy} {i : Nat}
    {prev : Option DgPayload} {d : DgElem} {p : DgPayload}
    (h : stepDg env policy i prev d = .ok p) :
    env.verifyJwsDg d.raw = .ok p ∧
      ∀ q, prev = some q → scope_subset p.dg.scope q.dg.scope = true := by
  unfold stepDg at h
  rcases hdec : env.verifyJwsDg d.raw with e | payload <;>
    simp only [hdec] at h
  · cases h
  · by_cases htime : env.now < payload.nbf.getD 0 ∨ env.now > payload.exp.getD 0
    · rw [if_pos htime] at h
      cases h
    · rw [if_neg htime] at h
      have hsc : stepDgScope i prev payload = .ok p := by
        by_cases hurl : payload.dg.statusUrl = ""
        · simp only [hurl, ne_eq, not_true_eq_false, if_false] at h
          exact stepDgAfterStatus_ok_inv h
        · simp only [ne_eq, hurl, not_false_eq_true, if_true] at h
          rcases hf : env.fetchStatus payload.dg.statusUrl with e | doc <;>
            simp only [hf] at h
          · by_cases hreq : policy.status_required.getD true = true
            · simp only [if_pos hreq] at h
              cases h
            · simp only [if_neg hreq] at h
              exact stepDgAfterStatus_ok_inv h
          · by_cases hrev : isRevoked doc 0 = true
            · simp only [if_pos hrev] at h
              cases h
            · simp only [if_neg hrev] at h
              exact stepDgAfterStatus_ok_inv h
      obtain ⟨hpp, hscope⟩ := stepDgScope_ok_inv hsc
      subst hpp
      refine ⟨rfl, ?_⟩
      intro q hq
      subst hq
      simpa [scopePasses] using hscope

lemma loop_error {env : Env} {policy : Policy} {good : List DgElem} {i : Nat}
    {prev : Option DgPayload} {goodPs : List DgPayload}
    (h : StepsOk env policy good i prev goodPs) :
    ∀ (acc : List DgPayload) (bad : DgElem) (rest : List DgElem)
      (r : Bool × String × Info),
      stepDg env policy (i + good.length) (lastOr prev goodPs) bad =
        .error r →
      verifyChainLoop env policy (good ++ bad :: rest) i prev acc = r := by
  induction h with
  | nil i prev =>
    intro acc bad rest r hstep
    simp only [List.length_nil, Nat.add_zero, lastOr, List.getLast?_nil]
      at hstep
    simp only [List.nil_append, verifyChainLoop, hstep]
  | @cons d ds i prev p ps hd hrest ih =>
    intro acc bad rest r hstep
    simp only [List.cons_append, verifyChainLoop, hd]
    have harith : i + (d :: ds).length = i + 1 + ds.length := by
      simp only [List.length_cons]
      omega
    rw [harith, lastOr_cons] at hstep
    exact ih (p :: acc) bad rest r hstep

lemma loop_true_chain {env : Env} {policy : Policy} :
    ∀ (raws : List DgElem) (i : Nat) (prev : Option DgPayload)
      (acc : List DgPayload) (c : String) (inf : Info) (ps : List DgPayload),
      verifyChainLoop env policy raws i prev acc = (true, c, inf) →
      List.Forall₂ (fun (d : DgElem) p => env.verifyJwsDg d.raw = .ok p)
        raws ps →
      List.Chain' (fun a b => scope_subset b.dg.scope a.dg.scope = true)
        (prev.toList ++ ps) := by
  intro raws
  induction raws with
  | nil =>
    intro i prev acc c inf ps hloop hf
    cases hf
    cases prev <;> simp
  | cons d ds ih =>
    intro i prev acc c inf ps hloop hf
    cases hf with
    | cons hd hrest =>
      rename_i p ps'
      cases hstep : stepDg env policy i prev d with
      | error r =>
        simp only [verifyChainLoop, hstep] at hloop
        have hfst := stepDg_error_fst hstep
        rw [hloop] at hfst
        simp at hfst
      | ok p0 =>
        simp only [verifyChainLoop, hstep] at hloop
        obtain ⟨hdec0, hscope0⟩ := stepDg_ok_inv hstep
        have hp0 : p0 = p := by
          rw [hdec0] at hd
          injection hd
        subst hp0
        have hch := ih (i + 1) (some p0) (p0 :: acc) c inf ps' hloop hrest
        cases prev with
        | none => simpa using hch
        | some q =>
          have hq := hscope0 q rfl
          exact List.chain'_cons.mpr ⟨hq, by simpa using hch⟩

lemma stepDgAfterStatus_keyExists_indep {n : Int} {vdg vvc fs ke ke2 ai ch
    he sv} {i : Nat} {prev : Option DgPayload} {payload : DgPayload} :
    stepDgAfterStatus ⟨n, vdg, vvc, fs, ke, ai, ch, he, sv⟩ i prev payload =
      stepDgAfterStatus ⟨n, vdg, vvc, fs, ke2, ai, ch, he, sv⟩ i prev
        payload := by
  cases hkbv : payload.dg.keyBinding <;>
    simp [stepDgAfterStatus, hkbv, ite_self]

lemma stepDg_keyExists_indep {n : Int} {vdg vvc fs ke ke2 ai ch he sv}
    {policy : Policy} {i : Nat} {prev : Option DgPayload} {d : DgElem} :
    stepDg ⟨n, vdg, vvc, fs, ke, ai, ch, he, sv⟩ policy i prev d =
      stepDg ⟨n, vdg, vvc, fs, ke2, ai, ch, he, sv⟩ policy i prev d := by
  simp only [stepDg]
  cases hdec : vdg d.raw with
  | error e => rfl
  | ok payload =>
    simp only
    by_cases htime : n < payload.nbf.getD 0 ∨ n > payload.exp.getD 0
    · rw [if_pos htime, if_pos htime]
    · rw [if_neg htime, if_neg htime]
      by_cases hurl : payload.dg.statusUrl = ""
      · simp only [hurl, ne_eq, not_true_eq_false, if_false]
        exact stepDgAfterStatus_keyExists_indep
      · simp only [ne_eq, hurl, not_false_eq_true, if_true]
        cases hf : fs payload.dg.statusUrl with
        | error e =>
          simp only []
          by_cases hreq : policy.status_required.getD true = true
          · rw [if_pos hreq, if_pos hreq]
          · rw [if_neg hreq, if_neg hreq]
            exact stepDgAfterStatus_keyExists_indep
        | ok doc =>
          simp only []
          by_cases hrev : isRevoked doc 0 = true
          · rw [if_pos hrev, if_pos hrev]
          · rw [if_neg hrev, if_neg hrev]
            exact stepDgAfterStatus_keyExists_indep

lemma loop_keyExists_indep {n : Int} {vdg vvc fs ke ke2 ai ch he sv}
    {policy : Policy} :
    ∀ (raws : List DgElem) (i : Nat) (prev : Option DgPayload)
      (acc : List DgPayload),
      verifyChainLoop ⟨n, vdg, vvc, fs, ke, ai, ch, he, sv⟩ policy raws i
          prev acc =
        verifyChainLoop ⟨n, vdg, vvc, fs, ke2, ai, ch, he, sv⟩ policy raws i
          prev acc := by
  intro raws
  induction raws with
  | nil => intro i prev acc; rfl
  | cons d ds ih =>
    intro i prev acc
    simp only [verifyChainLoop]
    rw [@stepDg_keyExists_indep n vdg vvc fs ke ke2 ai ch he sv policy i
      prev d]
    cases hstep : stepDg ⟨n, vdg, vvc, fs, ke2, ai, ch, he, sv⟩ policy i
        prev d with
    | error r => rfl
    | ok payload => exact ih (i + 1) (some payload) (payload :: acc)

lemma verifyDelegationChain_keyExists_indep {n : Int} {vdg vvc fs ke ke2 ai
    ch he sv} {policy : Policy} (delta : List DgElem) :
    verifyDelegationChain delta ⟨n, vdg, vvc, fs, ke, ai, ch, he, sv⟩
        policy =
      verifyDelegationChain delta ⟨n, vdg, vvc, fs, ke2, ai, ch, he, sv⟩
        policy := by
  simp only [verifyDelegationChain]
  cases hemp : delta.isEmpty
  · have hcond : ¬(false = true) := by simp
    rw [if_neg hcond, if_neg hcond]
    by_cases hd : (delta.length : Int) > policy.max_delegation_depth.getD 3
    · rw [if_pos hd, if_pos hd]
    · rw [if_neg hd, if_neg hd]
      exact loop_keyExists_indep delta 0 none []
  · rfl

lemma verifyDelegationChain_eq_loop {delta : List DgElem} {env : Env}
    {policy : Policy} (hne : delta ≠ [])
    (hlen : ¬((delta.length : Int) > policy.max_delegation_depth.getD 3)) :
    verifyDelegationChain delta env policy =
      verifyChainLoop env policy delta 0 none [] := by
  simp only [verifyDelegationChain]
  rw [if_neg (fun h => hne (List.isEmpty_iff.mp h))]
  rw [if_neg hlen]

lemma mkVroStep_ok_inv {P : Policy} {M : MetaM} {issV subV : Option String}
    {dgInfo : Info} {vro : Vro}
    (h : mkVroStep P M issV subV dgInfo = .ok vro) :
    ∃ rid pid, M.request_id = some rid ∧ P.id = some pid ∧
      vro = buildVro rid pid issV subV dgInfo := by
  unfold mkVroStep at h
  rcases hrid : M.request_id with _ | rid <;>
    rcases hpid : P.id with _ | pid <;> simp only [hrid, hpid] at h
  · cases h
  · cases h
  · cases h
  · injection h with h2
    exact ⟨rid, pid, rfl, rfl, h2.symm⟩

lemma verifyCvcAfterVc_ok_inv {cvc : Cvc} {env : Env} {P : Policy}
    {M : MetaM} {a b : Option String} {vro : Vro}
    (h : verifyCvcAfterVc cvc env P M a b = .ok vro) :
    ∃ dgInfo c rid pid,
      verifyDelegationChain (cvc.Delta.getD []) env P = (true, c, dgInfo) ∧
      M.request_id = some rid ∧ P.id = some pid ∧
      vro = buildVro rid pid a b dgInfo := by
  simp only [verifyCvcAfterVc] at h
  rcases hchain : verifyDelegationChain (cvc.Delta.getD []) env P with
    ⟨bs, code, dgInfo⟩
  simp only [hchain] at h
  cases bs
  · simp only [] at h
    cases h
  · simp only [] at h
    by_cases hhb : P.holder_binding_required.getD true = true
    · rw [if_pos hhb] at h
      rcases hb : M.holder_binding with _ | hbv <;> simp only [hb] at h
      · cases h
      · by_cases hpf : hbv.proof.getD "" = ""
        · rw [if_pos hpf] at h
          cases h
        · rw [if_neg hpf] at h
          obtain ⟨rid, pid, h1, h2, h3⟩ := mkVroStep_ok_inv h
          exact ⟨dgInfo, code, rid, pid, rfl, h1, h2, h3⟩
    · rw [if_neg hhb] at h
      obtain ⟨rid, pid, h1, h2, h3⟩ := mkVroStep_ok_inv h
      exact ⟨dgInfo, code, rid, pid, rfl, h1, h2, h3⟩

lemma verifyCvcCore_ok_timestamp {cvc : Cvc} {env : Env} {vro : Vro}
    (h : verifyCvcCore cvc env = .ok vro) :
    vro.timestamp = DETERMINISTIC_TIMESTAMP := by
  simp only [verifyCvcCore] at h
  rcases hmf : firstMissingField cvc with _ | f <;> simp only [hmf] at h
  · rcases hP : cvc.P with _ | P <;> rcases hM : cvc.M with _ | M <;>
      simp only [hP, hM] at h
    · cases h
    · cases h
    · cases h
    · by_cases hpj : M.profile_hint.getD "VC-JWT" = "VC-JWT"
      · rw [if_pos hpj] at h
        by_cases hraw : M.raw_vc_jwt = ""
        · rw [if_pos hraw] at h
          cases h
        · rw [if_neg hraw] at h
          rcases hvc : verifyVcJwt M.raw_vc_jwt env P with ⟨s, code, vcInfo⟩
          simp only [hvc] at h
          cases s
          · simp only [] at h
            cases h
          · simp only [] at h
            obtain ⟨dgInfo, c, rid, pid, _, _, _, h3⟩ :=
              verifyCvcAfterVc_ok_inv h
            rw [h3]
            rfl
      · rw [if_neg hpj] at h
        by_cases hpl : M.profile_hint.getD "VC-JWT" = "VC-LD"
        · rw [if_pos hpl] at h
          by_cases hld : M.raw_vc_ld_nonempty = false
          · rw [if_pos hld] at h
            cases h
          · rw [if_neg hld] at h
            obtain ⟨dgInfo, c, rid, pid, _, _, _, h3⟩ :=
              verifyCvcAfterVc_ok_inv h
            rw [h3]
            rfl
        · rw [if_neg hpl] at h
          cases h
  · cases h

lemma verifyAnchor_of_entry {st : AnchorState} {f : String}
    {p : AnchorProofRec} {e : ChainEntry} (hf : f ≠ "")
    (hl : lookupA st.anchors f = some p)
    (h1 : 1 ≤ p.block_number) (h2 : p.block_number ≤ st.chain.length)
    (he : st.chain[p.block_number - 1]? = some e)
    (hef : e.fingerprint = f) :
    verifyAnchor st f none = (true, none) := by
  simp only [verifyAnchor]
  rw [if_neg hf]
  simp only [verifyAnchorStored, hl]
  rw [if_pos ⟨h1, h2⟩]
  simp only [he]
  simp [hef]

lemma scope_subset_iff (child parent : DgScope) :
    scope_subset child parent = true ↔
      (child.resource = parent.resource ∧
        ∀ a ∈ child.actions, a ∈ parent.actions) := by
  unfold scope_subset
  by_cases hres : child.resource = parent.resource
  · simp [hres, List.all_eq_true, List.elem_iff, List.contains]
  · simp [hres]

lemma anchor_fresh {st : AnchorState} {f : String} {m : Metadata}
    {henv : HashEnv} (hf : f ≠ "") (hl : lookupA st.anchors f = none) :
    anchorChainFingerprint st f m henv =
      .ok (mkAnchorProof st f m henv, mkAnchorState st f m henv) := by
  simp only [anchorChainFingerprint]
  rw [if_neg hf]
  simp only [hl]
  rfl

lemma anchor_existing {st : AnchorState} {f : String} {m : Metadata}
    {henv : HashEnv} {p : AnchorProofRec} (hf : f ≠ "")
    (hl : lookupA st.anchors f = some p) :
    anchorChainFingerprint st f m henv = .ok (p, st) := by
  simp only [anchorChainFingerprint]
  rw [if_neg hf]
  simp only [hl]

/-! ### Claim theorems -/

/-- Claim C1: for a delegation chain, verification succeeds only if every
element past the first keeps the same scope resource as its predecessor and
has an action set contained in its predecessor's (conjunct 1, stated over
any decode of the raw tokens; conjunct 2 characterises `scope_subset`); and
if the first violation of the scope-subset rule occurs at index
`good.length > 0` while every earlier check passes, `verify_delegation_chain`
fails with `E400` (`DG_SCOPE_ESCALATION`), short-circuiting at that index
(conjunct 3). -/
theorem C1_scope_containment (env : Env) (policy : Policy) :
    (∀ (raws : List DgElem) (c : String) (inf : Info) (ps : List DgPayload),
      verifyDelegationChain raws env policy = (true, c, inf) →
      List.Forall₂ (fun (d : DgElem) p => env.verifyJwsDg d.raw = .ok p)
        raws ps →
      List.Chain' (fun a b => b.dg.scope.resource = a.dg.scope.resource ∧
        ∀ x ∈ b.dg.scope.actions, x ∈ a.dg.scope.actions) ps) ∧
    (∀ child parent : DgScope, scope_subset child parent = true ↔
      (child.resource = parent.resource ∧
        ∀ a ∈ child.actions, a ∈ parent.actions)) ∧
    (∀ (good : List DgElem) (goodPs : List DgPayload) (bad : DgElem)
        (pbad q : DgPayload) (rest : List DgElem),
      ((good ++ bad :: rest).length : Int) ≤
        policy.max_delegation_depth.getD 3 →
      StepsOk env policy good 0 none goodPs →
      lastOr none goodPs = some q →
      env.verifyJwsDg bad.raw = .ok pbad →
      ¬(env.now < pbad.nbf.getD 0 ∨ env.now > pbad.exp.getD 0) →
      dgStatusPasses env policy pbad = true →
      dgKeyBindingPasses pbad = true →
      scope_subset pbad.dg.scope q.dg.scope = false →
      verifyDelegationChain (good ++ bad :: rest) env policy =
        (false, ErrorCode.DG_SCOPE_ESCALATION,
          { index := some (good.length : Int) })) := by
  refine ⟨?_, fun child parent => scope_subset_iff child parent, ?_⟩
  · intro raws c inf ps hres hf
    by_cases hraws : raws = []
    · subst hraws
      cases hf
      simp
    · simp only [verifyDelegationChain] at hres
      rw [if_neg (fun h => hraws (List.isEmpty_iff.mp h))] at hres
      by_cases hlen : (raws.length : Int) > policy.max_delegation_depth.getD 3
      · rw [if_pos hlen] at hres
        simp at hres
      · rw [if_neg hlen] at hres
        have hchain := loop_true_chain raws 0 none [] c inf ps hres hf
        simp only [Option.toList, List.nil_append] at hchain
        exact hchain.imp (fun a b hab => (scope_subset_iff _ _).mp hab)
  · intro good goodPs bad pbad q rest hlen hsteps hlast hdec htime hstat hkb
      hviol
    have hstep := stepDg_scope_err (i := 0 + good.length) hdec htime hstat hkb
      hlast hviol
    have hres := loop_error hsteps [] bad rest _ hstep
    rw [verifyDelegationChain_eq_loop (by simp) (not_lt.mpr hlen)]
    simpa using hres

/-- Witness for C1: a depth-2 chain whose second element escalates from
actions view/pay to view/admin on the same resource fails with `E400` at
index 1. -/
theorem C1_scope_containment_witness :
    verifyDelegationChain [⟨"d0"⟩, ⟨"d1"⟩] envW polW =
      (false, ErrorCode.DG_SCOPE_ESCALATION, { index := some 1 }) := by
  have h := (C1_scope_containment envW polW).2.2 [⟨"d0"⟩] [p0W] ⟨"d1"⟩ p1W p0W
    [] (by decide)
    (StepsOk.cons (by rfl) (StepsOk.nil 1 (some p0W)))
    (by rfl) (by rfl) (by decide) (by rfl) (by rfl) (by rfl)
  simpa using h

/-- Claim C2: a non-empty chain longer than `policy.maxDelegationDepth`
(default 3) always fails `E300` (`DG_DEPTH`), for every environment — i.e.
before any signature, temporal, status, key-binding or scope check, which
all live in the environment — and regardless of the chain's content. -/
theorem C2_depth_bound (delta : List DgElem) (env : Env) (policy : Policy)
    (hne : delta ≠ [])
    (hlen : (delta.length : Int) > policy.max_delegation_depth.getD 3) :
    verifyDelegationChain delta env policy =
      (false, ErrorCode.DG_DEPTH,
        { max_depth := some (policy.max_delegation_depth.getD 3)
          actual := some delta.length }) := by
  simp only [verifyDelegationChain]
  rw [if_neg (fun h => hne (List.isEmpty_iff.mp h))]
  rw [if_pos hlen]

/-- Witness for C2: a chain of length 4 under the default depth bound 3
fails `DG_DEPTH`. -/
theorem C2_depth_bound_witness :
    verifyDelegationChain [⟨"a"⟩, ⟨"b"⟩, ⟨"c"⟩, ⟨"d"⟩] envW polW =
      (false, ErrorCode.DG_DEPTH, { max_depth := some 3, actual := some 4 }) :=
  C2_depth_bound _ envW polW (by decide) (by decide)

/-- Claim C10: `is_revoked` ignores its index argument entirely (conjunct 1);
it returns true exactly when the substring `"/////"` occurs in the
document's `encodedList` (conjunct 2); and it returns false when the
`encodedList` field is absent (conjunct 3).  The credential's
`statusListIndex` therefore never influences the revocation decision. -/
theorem C10_is_revoked_ignores_index (doc : StatusDoc) (i j : Int) :
    isRevoked doc i = isRevoked doc j ∧
    (isRevoked doc i = true ↔
      ∃ l r, (doc.encodedList.getD "").data = l ++ "/////".data ++ r) ∧
    (doc.encodedList = none → isRevoked doc i = false) := by
  refine ⟨rfl, ?_, ?_⟩
  · have hval : isRevoked doc i =
        pyInStr "/////" (doc.encodedList.getD "") := by
      unfold isRevoked
      cases hb : pyInStr "/////" (doc.encodedList.getD "") <;> simp [hb]
    rw [hval]
    unfold pyInStr
    exact containsSub_iff _ _
  · intro h
    obtain ⟨el⟩ := doc
    simp only at h
    subst h
    rfl

/-- Witness for C10: a document without `encodedList` is not revoked. -/
theorem C10_is_revoked_witness : isRevoked ⟨none⟩ 0 = false :=
  (C10_is_revoked_ignores_index ⟨none⟩ 0 5).2.2 rfl

/-- Claim C3: when a status fetch raises, verification fails `E300`
(`STATUS_FETCH_ERROR`) and no later stage runs whenever
`policy.statusRequired` is true or absent, while with
`statusRequired = false` the error is only logged and verification proceeds
with the remaining checks.  Conjunct 1 states both outcomes for
`verify_vc_jwt`, conjunct 2 per element of `verify_delegation_chain`
(fail-open: the element continues through the remaining key-binding and
scope checks and is accepted when they pass), and conjunct 3 the
whole-chain fail-closed result at the failing element's index. -/
theorem C3_status_fail_closed_open (env : Env) (policy : Policy) :
    (∀ (tok : String) (h : VcHeader) (p : VcPayload) (e : String),
      env.verifyJwsVc tok = .ok (h, p) →
      vcAlgAllowed policy h = true →
      vcTimeViolated env.now policy p = false →
      p.statusListCredential ≠ "" →
      env.fetchStatus p.statusListCredential = .error e →
      (policy.status_required.getD true = true →
        verifyVcJwt tok env policy = (false, ErrorCode.STATUS_FETCH_ERROR,
          { error := some e, index := some p.statusListIndex })) ∧
      (policy.status_required = some false →
        verifyVcJwt tok env policy = (true, ErrorCode.OK,
          { iss := p.iss, sub := p.sub }))) ∧
    (∀ (i : Nat) (prev : Option DgPayload) (d : DgElem) (p : DgPayload)
        (e : String),
      env.verifyJwsDg d.raw = .ok p →
      ¬(env.now < p.nbf.getD 0 ∨ env.now > p.exp.getD 0) →
      p.dg.statusUrl ≠ "" →
      env.fetchStatus p.dg.statusUrl = .error e →
      (policy.status_required.getD true = true →
        stepDg env policy i prev d =
          .error (false, ErrorCode.STATUS_FETCH_ERROR,
            { index := some (i : Int), error := some e })) ∧
      (policy.status_required = some false →
        dgKeyBindingPasses p = true → scopePasses prev p = true →
        stepDg env policy i prev d = .ok p)) ∧
    (∀ (good : List DgElem) (goodPs : List DgPayload) (bad : DgElem)
        (pbad : DgPayload) (e : String) (rest : List DgElem),
      ((good ++ bad :: rest).length : Int) ≤
        policy.max_delegation_depth.getD 3 →
      StepsOk env policy good 0 none goodPs →
      env.verifyJwsDg bad.raw = .ok pbad →
      ¬(env.now < pbad.nbf.getD 0 ∨ env.now > pbad.exp.getD 0) →
      pbad.dg.statusUrl ≠ "" →
      env.fetchStatus pbad.dg.statusUrl = .error e →
      policy.status_required.getD true = true →
      verifyDelegationChain (good ++ bad :: rest) env policy =
        (false, ErrorCode.STATUS_FETCH_ERROR,
          { index := some (good.length : Int), error := some e })) := by
  refine ⟨?_, ?_, ?_⟩
  · intro tok h p e hvc halg htv hurl hfetch
    constructor
    · intro hreq
      simp only [verifyVcJwt, hvc]
      rw [if_neg (by simp [halg])]
      rw [if_neg (by simp [htv])]
      rw [if_pos hurl]
      simp only [hfetch]
      rw [if_pos hreq]
    · intro hreqf
      have hreq' : policy.status_required.getD true = false := by
        rw [hreqf]
        rfl
      simp only [verifyVcJwt, hvc]
      rw [if_neg (by simp [halg])]
      rw [if_neg (by simp [htv])]
      rw [if_pos hurl]
      simp only [hfetch]
      rw [if_neg (by simp [hreq'])]
  · intro i prev d p e hdec htime hurl hfetch
    constructor
    · intro hreq
      exact stepDg_status_closed hdec htime hurl hfetch hreq
    · intro hreqf hkb hscope
      refine stepDg_eq_ok hdec htime ?_ hkb hscope
      exact dgStatusPasses_of_error hfetch (by rw [hreqf]; rfl)
  · intro good goodPs bad pbad e rest hlen hsteps hdec htime hurl hfetch hreq
    have hstep := @stepDg_status_closed env policy (0 + good.length)
      (lastOr none goodPs) bad pbad e hdec htime hurl hfetch hreq
    have hres := loop_error hsteps [] bad rest _ hstep
    rw [verifyDelegationChain_eq_loop (by simp) (not_lt.mpr hlen)]
    simpa using hres

/-- Witness for C3: a VC-JWT whose status fetch fails under the default
(fail-closed) policy yields `E300` with the status index. -/
theorem C3_status_witness :
    verifyVcJwt "vstat" envW polW = (false, ErrorCode.STATUS_FETCH_ERROR,
      { error := some "status fetch failed", index := some 0 }) :=
  (((C3_status_fail_closed_open envW polW).1 "vstat" vcHeaderW vcPayloadStatW
    "status fetch failed" rfl rfl rfl (by decide) rfl).1) rfl

/-- Claim C7: the per-element temporal check of `verify_delegation_chain`
passes exactly when `now` lies in `[notBefore, notAfter]`, with no
clock-skew allowance (conjunct 1 states the check's condition, with the
source's defaults `nbf = exp = 0` for absent fields); a violating element
makes the element step fail `E300` (`DG_TIME`) carrying its index
(conjunct 2), the whole chain fails at the first violating index
(conjunct 3), and a depth-1 chain whose element has `notAfter` in the past
fails `E300`/`DG_TIME` (conjunct 4). -/
theorem C7_temporal_check (env : Env) (policy : Policy) :
    (∀ p : DgPayload,
      ¬(env.now < p.nbf.getD 0 ∨ env.now > p.exp.getD 0) ↔
        (p.nbf.getD 0 ≤ env.now ∧ env.now ≤ p.exp.getD 0)) ∧
    (∀ (i : Nat) (prev : Option DgPayload) (d : DgElem) (p : DgPayload),
      env.verifyJwsDg d.raw = .ok p →
      (env.now < p.nbf.getD 0 ∨ env.now > p.exp.getD 0) →
      stepDg env policy i prev d =
        .error (false, ErrorCode.DG_TIME, { index := some (i : Int) })) ∧
    (∀ (good : List DgElem) (goodPs : List DgPayload) (bad : DgElem)
        (pbad : DgPayload) (rest : List DgElem),
      ((good ++ bad :: rest).length : Int) ≤
        policy.max_delegation_depth.getD 3 →
      StepsOk env policy good 0 none goodPs →
      env.verifyJwsDg bad.raw = .ok pbad →
      (env.now < pbad.nbf.getD 0 ∨ env.now > pbad.exp.getD 0) →
      verifyDelegationChain (good ++ bad :: rest) env policy =
        (false, ErrorCode.DG_TIME, { index := some (good.length : Int) })) ∧
    (∀ (d : DgElem) (p : DgPayload),
      env.verifyJwsDg d.raw = .ok p →
      p.exp.getD 0 < env.now →
      (1 : Int) ≤ policy.max_delegation_depth.getD 3 →
      verifyDelegationChain [d] env policy =
        (false, ErrorCode.DG_TIME, { index := some 0 })) := by
  have hmain : ∀ (good : List DgElem) (goodPs : List DgPayload)
      (bad : DgElem) (pbad : DgPayload) (rest : List DgElem),
      ((good ++ bad :: rest).length : Int) ≤
        policy.max_delegation_depth.getD 3 →
      StepsOk env policy good 0 none goodPs →
      env.verifyJwsDg bad.raw = .ok pbad →
      (env.now < pbad.nbf.getD 0 ∨ env.now > pbad.exp.getD 0) →
      verifyDelegationChain (good ++ bad :: rest) env policy =
        (false, ErrorCode.DG_TIME, { index := some (good.length : Int) }) := by
    intro good goodPs bad pbad rest hlen hsteps hdec htime
    have hstep := @stepDg_time_err env policy (0 + good.length)
      (lastOr none goodPs) bad pbad hdec htime
    have hres := loop_error hsteps [] bad rest _ hstep
    rw [verifyDelegationChain_eq_loop (by simp) (not_lt.mpr hlen)]
    simpa using hres
  refine ⟨?_, ?_, hmain, ?_⟩
  · intro p
    constructor
    · intro h
      push_neg at h
      omega
    · intro h
      push_neg
      omega
  · intro i prev d p hdec htime
    exact stepDg_time_err hdec htime
  · intro d p hdec hexp hmax
    have h := hmain [] [] d p [] (by simpa using hmax) (StepsOk.nil 0 none)
      hdec (Or.inr hexp)
    simpa using h

/-- Witness for C7: a depth-1 chain whose element expired at time 10 is
rejected at time 1000 with `E300`/`DG_TIME` at index 0. -/
theorem C7_temporal_check_witness :
    verifyDelegationChain [⟨"dx"⟩] envW polW =
      (false, ErrorCode.DG_TIME, { index := some 0 }) :=
  (C7_temporal_check envW polW).2.2.2 ⟨"dx"⟩ pExpW rfl (by decide) (by decide)

/-- Claim C8: a delegation element with a non-empty key-binding object but a
missing or empty kid makes the element step fail `E200`
(`KEY_BINDING_UNVERIFIED`) with reason `missing_kid` (conjunct 1), and the
whole chain fails likewise at that element's index (conjunct 2); whereas a
kid that is merely absent from the issuer's JWKS never by itself affects
the result: `verify_delegation_chain` is entirely independent of the
`key_exists_in_jwks` oracle (conjunct 3, the documented fail-open gap). -/
theorem C8_key_binding (env : Env) (policy : Policy) :
    (∀ (i : Nat) (prev : Option DgPayload) (d : DgElem) (p : DgPayload)
        (kb : KeyBinding),
      env.verifyJwsDg d.raw = .ok p →
      ¬(env.now < p.nbf.getD 0 ∨ env.now > p.exp.getD 0) →
      dgStatusPasses env policy p = true →
      p.dg.keyBinding = some kb →
      kb.kid.getD "" = "" →
      stepDg env policy i prev d =
        .error (false, ErrorCode.KEY_BINDING_UNVERIFIED,
          { index := some (i : Int), reason := some "missing_kid" })) ∧
    (∀ (good : List DgElem) (goodPs : List DgPayload) (bad : DgElem)
        (pbad : DgPayload) (kb : KeyBinding) (rest : List DgElem),
      ((good ++ bad :: rest).length : Int) ≤
        policy.max_delegation_depth.getD 3 →
      StepsOk env policy good 0 none goodPs →
      env.verifyJwsDg bad.raw = .ok pbad →
      ¬(env.now < pbad.nbf.getD 0 ∨ env.now > pbad.exp.getD 0) →
      dgStatusPasses env policy pbad = true →
      pbad.dg.keyBinding = some kb →
      kb.kid.getD "" = "" →
      verifyDelegationChain (good ++ bad :: rest) env policy =
        (false, ErrorCode.KEY_BINDING_UNVERIFIED,
          { index := some (good.length : Int)
            reason := some "missing_kid" })) ∧
    (∀ (g : String → Bool) (delta : List DgElem),
      verifyDelegationChain delta { env with keyExists := g } policy =
        verifyDelegationChain delta env policy) := by
  refine ⟨?_, ?_, ?_⟩
  · intro i prev d p kb hdec htime hstat hkbv hkid
    exact stepDg_kb_missing hdec htime hstat hkbv hkid
  · intro good goodPs bad pbad kb rest hlen hsteps hdec htime hstat hkbv hkid
    have hstep := @stepDg_kb_missing env policy (0 + good.length)
      (lastOr none goodPs) bad pbad kb hdec htime hstat hkbv hkid
    have hres := loop_error hsteps [] bad rest _ hstep
    rw [verifyDelegationChain_eq_loop (by simp) (not_lt.mpr hlen)]
    simpa using hres
  · intro g delta
    obtain ⟨n, vdg, vvc, fs, ke, ai, ch, he, sv⟩ := env
    exact verifyDelegationChain_keyExists_indep delta

/-- Witness for C8: a depth-1 chain whose element carries a key binding
without a kid fails `E200` with reason `missing_kid` at index 0. -/
theorem C8_key_binding_witness :
    stepDg envW polW 0 none ⟨"dk"⟩ =
      .error (false, ErrorCode.KEY_BINDING_UNVERIFIED,
        { index := some 0, reason := some "missing_kid" }) :=
  (C8_key_binding envW polW).1 0 none ⟨"dk"⟩ pKbW {} rfl (by decide) rfl rfl
    rfl

/-- Claim C9: an empty delegation chain verifies successfully with depth 0
and no chain fingerprint, skipping signature, status, anchoring and
fingerprint computation (conjunct 1: the result for any environment and
policy carries `depth = 0` and no `chain_fingerprint` key); consequently a
CVC with an empty chain, a VC-JWT that verifies, and
`holderBindingRequired = false` succeeds, and its VRO has
`delegation_chain_depth = 0` and `chain_fingerprint = null`
(conjunct 2). -/
theorem C9_empty_chain (env : Env) (policy : Policy) :
    (verifyDelegationChain [] env policy =
      (true, ErrorCode.OK, { depth := some 0 })) ∧
    (∀ (cvc : Cvc) (P : Policy) (M : MetaM) (c : String) (vcInfo : Info)
        (rid pid tok2 : String),
      firstMissingField cvc = none →
      cvc.P = some P → cvc.M = some M →
      M.profile_hint.getD "VC-JWT" = "VC-JWT" →
      M.raw_vc_jwt ≠ "" →
      verifyVcJwt M.raw_vc_jwt env P = (true, c, vcInfo) →
      cvc.Delta.getD [] = [] →
      P.holder_binding_required = some false →
      M.request_id = some rid → P.id = some pid →
      verifyCvcCore cvc env =
        .ok (buildVro rid pid vcInfo.iss vcInfo.sub { depth := some 0 }) ∧
      (buildVro rid pid vcInfo.iss vcInfo.sub
        { depth := some 0 }).delegation_chain_depth = 0 ∧
      (buildVro rid pid vcInfo.iss vcInfo.sub
        { depth := some 0 }).chain_fingerprint = none ∧
      (env.signVro (buildVro rid pid vcInfo.iss vcInfo.sub
          { depth := some 0 }) = .ok tok2 →
        verifyCvc cvc env = (true, ErrorCode.OK,
          { vro_jwt := some tok2 }))) := by
  constructor
  · rfl
  · intro cvc P M c vcInfo rid pid tok2 hmf hP hM hpj hraw hvc hdelta hhbf
      hrid hpid
    have hcore : verifyCvcCore cvc env =
        .ok (buildVro rid pid vcInfo.iss vcInfo.sub { depth := some 0 }) := by
      simp only [verifyCvcCore, hmf, hP, hM]
      rw [if_pos hpj]
      rw [if_neg hraw]
      simp only [hvc]
      simp only [verifyCvcAfterVc, hdelta]
      have hempty : verifyDelegationChain [] env P =
          (true, ErrorCode.OK, { depth := some 0 }) := rfl
      simp only [hempty]
      rw [if_neg (by simp [hhbf])]
      simp only [mkVroStep, hrid, hpid]
    refine ⟨hcore, rfl, rfl, ?_⟩
    intro hsign
    simp only [verifyCvc, hcore, hsign]

/-- Witness for C9: the concrete CVC with an explicitly empty chain, a valid
VC-JWT and `holder_binding_required = false` verifies successfully. -/
theorem C9_empty_chain_witness :
    verifyCvc cvcEmptyDelta envW =
      (true, ErrorCode.OK, { vro_jwt := some "signed.vro.jwt" }) :=
  ((C9_empty_chain envW polW).2 cvcEmptyDelta
    { id := some "policy-1", holder_binding_required := some false } metaW
    ErrorCode.OK { iss := some "did:ex:issuer", sub := some "did:ex:alice" }
    "req-1" "policy-1" "signed.vro.jwt"
    rfl rfl rfl rfl (by decide) rfl rfl rfl rfl rfl).2.2.2 rfl

/-- Counterexample for C4: the claim says a CVC missing its `Delta`
(delegation chain) field is rejected as a structural error (`100`) before
any other stage; but on this concrete CVC with `Delta` absent,
`verify_cvc` succeeds outright, treating the missing field as an empty
chain. -/
theorem C4_counterexample :
    cvcNoDelta.Delta = none ∧
    verifyCvc cvcNoDelta envW =
      (true, ErrorCode.OK, { vro_jwt := some "signed.vro.jwt" }) := by
  constructor
  · rfl
  · rfl

/-- Claim C4 (amended): absence of any of the seven required top-level CVC
fields `I_issuer`, `I_subject`, `C`, `pi`, `P`, `S`, `M` makes `verify_cvc`
fail with `FormatError` code `100` before any other stage runs (the result
is the same for every environment); but `Delta` is NOT required: a CVC
missing `Delta` is processed exactly as one with an explicitly empty
delegation chain. -/
theorem C4_structural_amended (cvc : Cvc) (env env2 : Env) :
    (∀ f, firstMissingField cvc = some f →
      verifyCvc cvc env =
        (false, ErrorCode.STRUCT, { msg := some ("missing " ++ f) }) ∧
      verifyCvc cvc env = verifyCvc cvc env2) ∧
    ((cvc.I_issuer = none ∨ cvc.I_subject = none ∨ cvc.C = none ∨
      cvc.pi = none ∨ cvc.P = none ∨ cvc.S = none ∨ cvc.M = none) →
      ∃ f, firstMissingField cvc = some f) ∧
    (cvc.Delta = none →
      verifyCvcCore cvc env = verifyCvcCore { cvc with Delta := some [] }
        env) := by
  refine ⟨?_, ?_, ?_⟩
  · intro f hmf
    have hcore : ∀ e : Env, verifyCvcCore cvc e =
        .fail ErrorCode.STRUCT { msg := some ("missing " ++ f) } := by
      intro e
      simp only [verifyCvcCore, hmf]
    constructor
    · simp only [verifyCvc, hcore env]
    · simp only [verifyCvc, hcore env, hcore env2]
  · intro hany
    rcases hmf : firstMissingField cvc with _ | f
    · exfalso
      unfold firstMissingField at hmf
      rcases hany with h | h | h | h | h | h | h <;>
        (repeat' split at hmf) <;> simp_all
    · exact ⟨f, rfl⟩
  · intro hdelta
    obtain ⟨i1, i2, c0, pi0, P0, S0, M0, D0⟩ := cvc
    simp only at hdelta
    subst hdelta
    rfl

/-- Witness for C4 (amended): the empty CVC is rejected with code `100` and
message naming the first missing field. -/
theorem C4_structural_amended_witness :
    verifyCvc {} envW =
      (false, ErrorCode.STRUCT, { msg := some "missing I_issuer" }) :=
  ((C4_structural_amended {} envW envW).1 "I_issuer" rfl).1

/-- Claim C5: `verify_cvc` is deterministic at a fixed external state: two
successful runs on the same CVC and environment produce the same VRO, whose
timestamp is always the fixed constant `DETERMINISTIC_TIMESTAMP`
(1735600000) rather than wall-clock time, and whose chain fingerprint
agrees between the runs. -/
theorem C5_determinism (cvc : Cvc) (env : Env) (vro1 vro2 : Vro)
    (h1 : verifyCvcCore cvc env = .ok vro1)
    (h2 : verifyCvcCore cvc env = .ok vro2) :
    vro1 = vro2 ∧ vro1.timestamp = DETERMINISTIC_TIMESTAMP ∧
      DETERMINISTIC_TIMESTAMP = 1735600000 ∧
      vro1.chain_fingerprint = vro2.chain_fingerprint := by
  have h12 : vro1 = vro2 := by
    rw [h1] at h2
    injection h2
  exact ⟨h12, verifyCvcCore_ok_timestamp h1, rfl, by rw [h12]⟩

/-- Witness for C5: the concrete CVC verifies to the explicit VRO `vroW`,
whose timestamp is the deterministic constant. -/
theorem C5_determinism_witness :
    vroW = vroW ∧ vroW.timestamp = DETERMINISTIC_TIMESTAMP ∧
      DETERMINISTIC_TIMESTAMP = 1735600000 ∧
      vroW.chain_fingerprint = vroW.chain_fingerprint :=
  C5_determinism cvcNoDelta envW vroW vroW (by rfl) (by rfl)

/-- Claim C6: anchoring is idempotent.  From any consistent ledger state,
anchoring a non-empty fingerprint succeeds; anchoring it again with any
other metadata returns the identical proof and leaves the state unchanged
(no new block is minted); and `verify_anchor` on the anchored fingerprint
returns `(true, none)`. -/
theorem C6_anchor_idempotent (st : AnchorState) (f : String)
    (m1 m2 : Metadata) (henv : HashEnv) (hf : f ≠ "")
    (hinv : AnchorInv st) :
    ∃ p st2, anchorChainFingerprint st f m1 henv = .ok (p, st2) ∧
      anchorChainFingerprint st2 f m2 henv = .ok (p, st2) ∧
      verifyAnchor st2 f none = (true, none) := by
  rcases hl : lookupA st.anchors f with _ | p
  · refine ⟨mkAnchorProof st f m1 henv, mkAnchorState st f m1 henv,
      anchor_fresh hf hl, ?_, ?_⟩
    all_goals
      have hl2 : lookupA (mkAnchorState st f m1 henv).anchors f =
          some (mkAnchorProof st f m1 henv) := by
        show lookupA (st.anchors ++ [(f, mkAnchorProof st f m1 henv)]) f =
          some (mkAnchorProof st f m1 henv)
        rw [lookupA_append_none f _ hl]
        simp
    · exact anchor_existing hf hl2
    · refine verifyAnchor_of_entry
        (e := { block_hash := (mkAnchorProof st f m1 henv).block_hash
                block_number := st.chain.length + 1
                fingerprint := f
                timestamp := henv.now })
        hf hl2 ?_ ?_ ?_ rfl
      · simp [mkAnchorProof]
      · simp [mkAnchorProof, mkAnchorState]
      · show (mkAnchorState st f m1 henv).chain[
          (mkAnchorProof st f m1 henv).block_number - 1]? = some _
        simp only [mkAnchorProof, mkAnchorState, Nat.add_sub_cancel]
        exact List.getElem?_concat_length _ _
  · obtain ⟨h1, h2, e, he, hef⟩ := hinv f p hl
    exact ⟨p, st, anchor_existing hf hl, anchor_existing hf hl,
      verifyAnchor_of_entry hf hl h1 h2 he hef⟩

/-- Witness for C6: anchoring `"abc"` in the empty ledger, re-anchoring with
different metadata, and verifying. -/
theorem C6_anchor_idempotent_witness :
    ∃ p st2, anchorChainFingerprint {} "abc" [] hashEnv0 = .ok (p, st2) ∧
      anchorChainFingerprint st2 "abc" [("k", "v")] hashEnv0 =
        .ok (p, st2) ∧
      verifyAnchor st2 "abc" none = (true, none) :=
  C6_anchor_idempotent {} "abc" [] [("k", "v")] hashEnv0 (by decide)
    (fun f p h => by simp [lookupA] at h)
